import Mathlib

/-!
Shallow embedding of the chat server core from src/server.js.

The mutable JavaScript objects `rooms` (room name -> { users, messages })
and `socketToUserMap` (socket id -> { username, room }) are modelled as
association lists with JavaScript object semantics: updating an existing
key keeps its position, adding a new key appends at the end, `delete`
removes the entry, and `Object.values` returns values in insertion order.
Each socket.io event handler becomes a pure function from the server
state and the event payload to the next state plus the list of emitted
transport effects.  A handler that would raise a TypeError at runtime
(accessing a field of `undefined`) returns `none`.
-/

set_option autoImplicit false

/-- Association-list lookup, mirroring JavaScript property access `obj[k]`. -/
def lookupKey {α : Type} (k : String) : List (String × α) → Option α
  | [] => none
  | p :: t => if p.1 = k then some p.2 else lookupKey k t

/-- Association-list update `obj[k] = v`: replaces an existing key in place,
otherwise appends the new key at the end, as JavaScript objects do. -/
def upsert {α : Type} (k : String) (v : α) : List (String × α) → List (String × α)
  | [] => [(k, v)]
  | p :: t => if p.1 = k then (k, v) :: t else p :: upsert k v t

/-- Association-list removal `delete obj[k]`. -/
def eraseKey {α : Type} (k : String) : List (String × α) → List (String × α)
  | [] => []
  | p :: t => if p.1 = k then t else p :: eraseKey k t

/-- Value stored in `rooms[room].users[standardizedUsername]` (server.js line 77). -/
structure UserInfo where
  socketId : String
  username : String
deriving DecidableEq

/-- Value stored in `socketToUserMap[socket.id]` (server.js line 78). -/
structure SessionInfo where
  username : String
  room : String
deriving DecidableEq

/-- The relevant fields of the `messageData` payload of `send_message`.
The validity check in the source tests JavaScript truthiness of
`messageData.username`, `messageData.message` and `messageData.time`;
for string fields truthiness is non-emptiness. -/
structure MessageData where
  username : String
  message : String
  time : String
deriving DecidableEq

/-- A record stored in `rooms[room].messages`: either a chat message
(`{...messageData, userId, messageId}`, server.js line 106) or a system
message (`{message, time, messageId, type: system}`, lines 92/134/159). -/
inductive Message where
  | chat (username message time userId messageId : String)
  | system (message time messageId : String)
deriving DecidableEq

/-- The server-assigned id of a stored record. -/
def msgId : Message → String
  | Message.chat _ _ _ _ i => i
  | Message.system _ _ i => i

/-- One entry of the `rooms` table: `{ users, messages }`. -/
structure Room where
  users : List (String × UserInfo)
  messages : List Message
deriving DecidableEq

/-- The whole mutable server state: the `rooms` table and `socketToUserMap`. -/
structure ServerState where
  rooms : List (String × Room)
  socketToUserMap : List (String × SessionInfo)
deriving DecidableEq

/-- Name of the permanent default room. -/
def publicRoom : String := "public"

/-- Initial state (server.js lines 14-18): only the default public room,
with no users and no messages, and an empty reverse index. -/
def initState : ServerState :=
  ⟨[(publicRoom, ⟨[], []⟩)], []⟩

/-- Inbound events delivered by the transport, with the connection id. -/
inductive Event where
  | check_room (sid : String) (roomId : Option String)
  | join_room (sid : String) (username : Option String) (roomId : Option String)
  | send_message (sid : String) (messageData : Option MessageData) (roomId : Option String)
  | typing (sid : String) (roomId : Option String)
  | leave_room (sid : String) (roomId : Option String)
  | disconnect (sid : String)
deriving DecidableEq

/-- Outbound events emitted back through the transport. -/
inductive OutEvent where
  | chat_history (msgs : List Message)
  | user_list (users : List UserInfo)
  | system_message (m : Message)
  | join_error (reason : String)
  | join_success
  | receive_message (m : Message)
  | user_typing (socketId username : String)
deriving DecidableEq

/-- One transport effect instructed by a handler. -/
inductive Output where
  | emitTo (sid : String) (ev : OutEvent)
  | emitRoom (room : String) (ev : OutEvent)
  | emitRoomExcept (room : String) (sid : String) (ev : OutEvent)
  | socketJoin (sid : String) (room : String)
  | socketLeave (sid : String) (room : String)
  | reply (sid : String) (b : Bool)
deriving DecidableEq

/-- Room-name defaulting `roomId || public` (JavaScript `||` treats the
empty string as falsy). -/
def resolveRoom : Option String → String
  | none => publicRoom
  | some r => if r = "" then publicRoom else r

/-- Removal of leading and trailing whitespace, `username.trim()`,
expressed on the character list of the string. -/
def trimStr (s : String) : String :=
  String.mk (((s.data.dropWhile Char.isWhitespace).reverse.dropWhile Char.isWhitespace).reverse)

/-- Case folding `username.toLowerCase()`, expressed on the character list. -/
def toLowerStr (s : String) : String := String.mk (s.data.map Char.toLower)

/-- Username standardization `username.trim().toLowerCase()` (server.js line 54). -/
def standardize (u : String) : String := toLowerStr (trimStr u)

/-- The fixed special-character set of the regex on server.js line 33. -/
def specialChars : String := "!@#$%^&*()_+-=[]\x7b\x7d;\x27:\x22\\|,.<>?\x60~"

/-- Number of decimal digit characters, `(username.match(/\d/g) or []).length`. -/
def countDigits (s : String) : Nat := (s.toList.filter Char.isDigit).length

/-- Whether the username contains a character of the special set. -/
def hasSpecialChar (s : String) : Bool := s.data.any (fun c => specialChars.data.contains c)

/-- `validateUsername` (server.js lines 20-39): three checks in a fixed
order, returning the message of the first failing check, or `none`. -/
def validateUsername (username : String) : Option String :=
  if username.length < 5 then
    some "Username must be at least 5 characters long."
  else if countDigits username < 2 then
    some "Username must contain at least 2 numbers."
  else if ¬ hasSpecialChar username then
    some "Username must contain at least 1 special character (e.g., !@#$%)."
  else
    none

/-- The system record appended on a successful join (server.js lines 90-92).
The display text uses the raw, non-standardized username.  `Date.now()` and
`toLocaleTimeString` are both driven by the `now` parameter. -/
def joinSysMsg (now : Nat) (sid rawUsername : String) : Message :=
  Message.system (rawUsername ++ " joined the chat") (toString now)
    ("system-" ++ toString now ++ "-" ++ sid)

/-- The system record appended on leave or disconnect (server.js lines
132-134 and 157-159).  The display text uses the username stored in the
session, which is the standardized form. -/
def leaveSysMsg (now : Nat) (sid username : String) : Message :=
  Message.system (username ++ " left the chat") (toString now)
    ("system-" ++ toString now ++ "-" ++ sid)

/-- The `check_room` handler (server.js lines 44-49): replies with
`rooms[room] && Object.keys(rooms[room].users).length > 0`. -/
def checkRoomHandler (s : ServerState) (sid : String) (roomId : Option String) :
    ServerState × List Output :=
  let room := resolveRoom roomId
  let roomExists : Bool :=
    match lookupKey room s.rooms with
    | some rm => !rm.users.isEmpty
    | none => false
  (s, [Output.reply sid roomExists])

/-- The success path of `join_room` (server.js lines 71-98): transport
join, ensure the room, insert the member and the reverse-index entry,
emit the history as stored before the join record is pushed, emit the
member list, push and emit the join system record, emit `join_success`. -/
def doJoin (now : Nat) (s : ServerState) (sid rawUsername room : String) :
    ServerState × List Output :=
  let u := standardize rawUsername
  let rm : Room :=
    match lookupKey room s.rooms with
    | some rm => rm
    | none => ⟨[], []⟩
  let users1 := upsert u ⟨sid, u⟩ rm.users
  let sysMsg := joinSysMsg now sid rawUsername
  (⟨upsert room ⟨users1, rm.messages ++ [sysMsg]⟩ s.rooms,
    upsert sid ⟨u, room⟩ s.socketToUserMap⟩,
   [Output.socketJoin sid room,
    Output.emitTo sid (OutEvent.chat_history rm.messages),
    Output.emitRoom room (OutEvent.user_list (users1.map Prod.snd)),
    Output.emitRoom room (OutEvent.system_message sysMsg),
    Output.emitTo sid OutEvent.join_success])

/-- The `join_room` handler (server.js lines 51-99).  A payload without a
username faults (`username.trim()` raises a TypeError), validation errors
and a taken username are signalled to the requester only. -/
def joinRoomHandler (now : Nat) (s : ServerState) (sid : String)
    (username : Option String) (roomId : Option String) :
    Option (ServerState × List Output) :=
  match username with
  | none => none
  | some rawUsername =>
    let room := resolveRoom roomId
    match validateUsername (standardize rawUsername) with
    | some err => some (s, [Output.emitTo sid (OutEvent.join_error err)])
    | none =>
      match lookupKey room s.rooms with
      | some rm =>
        match lookupKey (standardize rawUsername) rm.users with
        | some _ =>
          some (s, [Output.emitTo sid (OutEvent.join_error ("Username already taken in this room."))])
        | none => some (doJoin now s sid rawUsername room)
      | none => some (doJoin now s sid rawUsername room)

/-- The `send_message` handler (server.js lines 101-115).  Invalid payloads
are dropped silently; a valid payload naming a room that is not in the
`rooms` table faults (`rooms[room].messages` raises a TypeError). -/
def sendMessageHandler (now : Nat) (s : ServerState) (sid : String)
    (messageData : Option MessageData) (roomId : Option String) :
    Option (ServerState × List Output) :=
  let room := resolveRoom roomId
  match messageData with
  | none => some (s, [])
  | some md =>
    if md.username ≠ "" ∧ md.message ≠ "" ∧ md.time ≠ "" then
      match lookupKey room s.rooms with
      | none => none
      | some rm =>
        let fullMessageData :=
          Message.chat md.username md.message md.time sid (toString now ++ "-" ++ sid)
        some (⟨upsert room ⟨rm.users, rm.messages ++ [fullMessageData]⟩ s.rooms,
               s.socketToUserMap⟩,
              [Output.emitRoom room (OutEvent.receive_message fullMessageData)])
    else some (s, [])

/-- The `typing` handler (server.js lines 117-123): a no-op unless the
socket has a session and the named room exists. -/
def typingHandler (s : ServerState) (sid : String) (roomId : Option String) :
    ServerState × List Output :=
  let room := resolveRoom roomId
  match lookupKey sid s.socketToUserMap, lookupKey room s.rooms with
  | some ui, some _ =>
    (s, [Output.emitRoomExcept room sid (OutEvent.user_typing sid ui.username)])
  | some _, none => (s, [])
  | none, _ => (s, [])

/-- Shared removal sequence of `leave_room` and `disconnect`: erase the
member, append the leave record, erase the reverse-index entry, and delete
the room if it is non-default and now empty. -/
def removeFromRoom (s : ServerState) (sid room : String) (rm : Room)
    (uname : String) (sysMsg : Message) : ServerState :=
  let users1 := eraseKey uname rm.users
  let rooms1 := upsert room ⟨users1, rm.messages ++ [sysMsg]⟩ s.rooms
  ⟨if room ≠ publicRoom ∧ users1 = [] then eraseKey room rooms1 else rooms1,
   eraseKey sid s.socketToUserMap⟩

/-- The `leave_room` handler (server.js lines 125-148).  The room is
resolved from the payload; the guard only requires that the sender has a
session and that its username is a member of the resolved room. -/
def leaveRoomHandler (now : Nat) (s : ServerState) (sid : String)
    (roomId : Option String) : ServerState × List Output :=
  let room := resolveRoom roomId
  match lookupKey sid s.socketToUserMap with
  | none => (s, [])
  | some userInfo =>
    match lookupKey room s.rooms with
    | none => (s, [])
    | some rm =>
      match lookupKey userInfo.username rm.users with
      | none => (s, [])
      | some _ =>
        let sysMsg := leaveSysMsg now sid userInfo.username
        (removeFromRoom s sid room rm userInfo.username sysMsg,
         [Output.emitRoom room (OutEvent.system_message sysMsg),
          Output.socketLeave sid room,
          Output.emitRoom room
            (OutEvent.user_list ((eraseKey userInfo.username rm.users).map Prod.snd))])

/-- The `disconnect` handler (server.js lines 150-173).  The room comes
from the session; the reverse-index entry is removed in every branch, and
the system message is broadcast to the others only. -/
def disconnectHandler (now : Nat) (s : ServerState) (sid : String) :
    ServerState × List Output :=
  match lookupKey sid s.socketToUserMap with
  | none => (s, [])
  | some userInfo =>
    match lookupKey userInfo.room s.rooms with
    | none => (⟨s.rooms, eraseKey sid s.socketToUserMap⟩, [])
    | some rm =>
      match lookupKey userInfo.username rm.users with
      | none => (⟨s.rooms, eraseKey sid s.socketToUserMap⟩, [])
      | some _ =>
        let sysMsg := leaveSysMsg now sid userInfo.username
        (removeFromRoom s sid userInfo.room rm userInfo.username sysMsg,
         [Output.emitRoomExcept userInfo.room sid (OutEvent.system_message sysMsg),
          Output.emitRoom userInfo.room
            (OutEvent.user_list ((eraseKey userInfo.username rm.users).map Prod.snd))])

/-- One event-processing step.  `none` models a handler that raises a
TypeError; `now` drives `Date.now()` and the displayed times. -/
def step (now : Nat) (ev : Event) (s : ServerState) : Option (ServerState × List Output) :=
  match ev with
  | Event.check_room sid roomId => some (checkRoomHandler s sid roomId)
  | Event.join_room sid username roomId => joinRoomHandler now s sid username roomId
  | Event.send_message sid md roomId => sendMessageHandler now s sid md roomId
  | Event.typing sid roomId => some (typingHandler s sid roomId)
  | Event.leave_room sid roomId => some (leaveRoomHandler now s sid roomId)
  | Event.disconnect sid => some (disconnectHandler now s sid)

/-- The state after processing an event; a faulting handler mutates
nothing before it throws, so the state is unchanged in that case. -/
def stepState (now : Nat) (ev : Event) (s : ServerState) : ServerState :=
  ((step now ev s).map Prod.fst).getD s

/-- States reachable from the initial state by any event sequence. -/
inductive Reachable : ServerState → Prop where
  | init : Reachable initState
  | next {s : ServerState} (now : Nat) (ev : Event) :
      Reachable s → Reachable (stepState now ev s)

theorem lookupKey_upsert_self {α : Type} (k : String) (v : α) (l : List (String × α)) :
    lookupKey k (upsert k v l) = some v := by
  induction l with
  | nil => simp [upsert, lookupKey]
  | cons p t ih =>
    by_cases h : p.1 = k
    · simp [upsert, h, lookupKey]
    · simp [upsert, h, lookupKey, ih]

theorem lookupKey_upsert_ne {α : Type} {k q : String} (v : α) (l : List (String × α))
    (h : q ≠ k) : lookupKey q (upsert k v l) = lookupKey q l := by
  induction l with
  | nil => simp [upsert, lookupKey, Ne.symm h]
  | cons p t ih =>
    by_cases hp : p.1 = k
    · simp [upsert, hp, lookupKey, Ne.symm h]
    · simp [upsert, hp, lookupKey, ih]

theorem eraseKey_sublist {α : Type} (k : String) (l : List (String × α)) :
    (eraseKey k l).Sublist l := by
  induction l with
  | nil => simp [eraseKey]
  | cons p t ih =>
    by_cases hp : p.1 = k
    · simp [eraseKey, hp]
    · simpa [eraseKey, hp] using ih.cons₂ p

theorem mem_eraseKey {α : Type} {p : String × α} {k : String} {l : List (String × α)}
    (h : p ∈ eraseKey k l) : p ∈ l :=
  (eraseKey_sublist k l).subset h

theorem lookupKey_eraseKey_ne {α : Type} {k q : String} (l : List (String × α))
    (h : q ≠ k) : lookupKey q (eraseKey k l) = lookupKey q l := by
  induction l with
  | nil => simp [eraseKey]
  | cons p t ih =>
    by_cases hp : p.1 = k
    · have hpq : p.1 ≠ q := by
        rw [hp]; exact Ne.symm h
      simp [eraseKey, hp, lookupKey, hpq, Ne.symm h]
    · simp [eraseKey, hp, lookupKey, ih]

theorem lookupKey_eq_none_iff {α : Type} (k : String) (l : List (String × α)) :
    lookupKey k l = none ↔ ∀ p ∈ l, p.1 ≠ k := by
  induction l with
  | nil => simp [lookupKey]
  | cons p t ih =>
    by_cases hp : p.1 = k
    · simp [lookupKey, hp]
    · simp [lookupKey, hp, ih]

theorem lookupKey_eq_some_mem {α : Type} {k : String} {v : α} {l : List (String × α)}
    (h : lookupKey k l = some v) : (k, v) ∈ l := by
  induction l with
  | nil => simp [lookupKey] at h
  | cons p t ih =>
    by_cases hp : p.1 = k
    · simp [lookupKey, hp] at h
      have : p = (k, v) := by
        cases p
        simp only [Prod.mk.injEq]
        exact ⟨hp, h⟩
      simp [this]
    · simp [lookupKey, hp] at h
      exact List.mem_cons_of_mem p (ih h)

theorem mem_lookupKey_of_nodup {α : Type} {k : String} {v : α} {l : List (String × α)}
    (hnd : (l.map Prod.fst).Nodup) (h : (k, v) ∈ l) : lookupKey k l = some v := by
  induction l with
  | nil => simp at h
  | cons p t ih =>
    simp only [List.map_cons, List.nodup_cons] at hnd
    rcases List.mem_cons.mp h with heq | hmem
    · simp [lookupKey, ← heq]
    · have hne : p.1 ≠ k := by
        intro hk
        exact hnd.1 (hk ▸ (List.mem_map.mpr ⟨(k, v), hmem, rfl⟩))
      simp [lookupKey, hne, ih hnd.2 hmem]

theorem mem_upsert {α : Type} {p : String × α} {k : String} {v : α} {l : List (String × α)}
    (h : p ∈ upsert k v l) : p = (k, v) ∨ p ∈ l := by
  induction l with
  | nil => simp [upsert] at h; simp [h]
  | cons q t ih =>
    by_cases hq : q.1 = k
    · simp [upsert, hq] at h
      rcases h with h | h
      · exact Or.inl h
      · exact Or.inr (List.mem_cons_of_mem q h)
    · simp [upsert, hq] at h
      rcases h with h | h
      · exact Or.inr (by simp [h])
      · rcases ih h with h1 | h1
        · exact Or.inl h1
        · exact Or.inr (List.mem_cons_of_mem q h1)

theorem mem_upsert_of_nodup {α : Type} {p : String × α} {k : String} {v : α}
    {l : List (String × α)} (hnd : (l.map Prod.fst).Nodup) (h : p ∈ upsert k v l) :
    p = (k, v) ∨ (p ∈ l ∧ p.1 ≠ k) := by
  induction l with
  | nil => simp [upsert] at h; simp [h]
  | cons q t ih =>
    simp only [List.map_cons, List.nodup_cons] at hnd
    by_cases hq : q.1 = k
    · simp [upsert, hq] at h
      rcases h with h | h
      · exact Or.inl h
      · refine Or.inr ⟨List.mem_cons_of_mem q h, ?_⟩
        intro hk
        exact hnd.1 (hq ▸ hk ▸ (List.mem_map.mpr ⟨p, h, rfl⟩))
    · simp [upsert, hq] at h
      rcases h with h | h
      · exact Or.inr ⟨by simp [h], by simp [h, hq]⟩
      · rcases ih hnd.2 h with h1 | h1
        · exact Or.inl h1
        · exact Or.inr ⟨List.mem_cons_of_mem q h1.1, h1.2⟩

theorem mem_eraseKey_of_nodup {α : Type} {p : String × α} {k : String}
    {l : List (String × α)} (hnd : (l.map Prod.fst).Nodup) (h : p ∈ eraseKey k l) :
    p ∈ l ∧ p.1 ≠ k := by
  induction l with
  | nil => simp [eraseKey] at h
  | cons q t ih =>
    simp only [List.map_cons, List.nodup_cons] at hnd
    by_cases hq : q.1 = k
    · simp [eraseKey, hq] at h
      refine ⟨List.mem_cons_of_mem q h, ?_⟩
      intro hk
      exact hnd.1 (hq ▸ hk ▸ (List.mem_map.mpr ⟨p, h, rfl⟩))
    · simp [eraseKey, hq] at h
      rcases h with h | h
      · exact ⟨by simp [h], by simp [h, hq]⟩
      · rcases ih hnd.2 h with ⟨h1, h2⟩
        exact ⟨List.mem_cons_of_mem q h1, h2⟩

theorem lookupKey_eraseKey_self {α : Type} {k : String} {l : List (String × α)}
    (hnd : (l.map Prod.fst).Nodup) : lookupKey k (eraseKey k l) = none := by
  rw [lookupKey_eq_none_iff]
  intro p hp
  exact (mem_eraseKey_of_nodup hnd hp).2

theorem nodup_keys_upsert {α : Type} {k : String} {v : α} {l : List (String × α)}
    (hnd : (l.map Prod.fst).Nodup) : ((upsert k v l).map Prod.fst).Nodup := by
  induction l with
  | nil => simp [upsert]
  | cons q t ih =>
    simp only [List.map_cons, List.nodup_cons] at hnd
    by_cases hq : q.1 = k
    · have hup : upsert k v (q :: t) = (k, v) :: t := by simp [upsert, hq]
      rw [hup, List.map_cons]
      exact List.nodup_cons.mpr ⟨hq ▸ hnd.1, hnd.2⟩
    · simp only [upsert, hq, if_false, List.map_cons]
      refine List.nodup_cons.mpr ⟨?_, ih hnd.2⟩
      intro hmem
      rcases List.mem_map.mp hmem with ⟨p, hp, hfst⟩
      rcases mem_upsert hp with h1 | h1
      · exact hq (by rw [← hfst, h1])
      · exact hnd.1 (List.mem_map.mpr ⟨p, h1, hfst⟩)

theorem nodup_keys_eraseKey {α : Type} {k : String} {l : List (String × α)}
    (hnd : (l.map Prod.fst).Nodup) : ((eraseKey k l).map Prod.fst).Nodup :=
  hnd.sublist ((eraseKey_sublist k l).map Prod.fst)

theorem upsert_ne_nil {α : Type} (k : String) (v : α) (l : List (String × α)) :
    upsert k v l ≠ [] := by
  cases l with
  | nil => simp [upsert]
  | cons p t =>
    by_cases hp : p.1 = k <;> simp [upsert, hp]

/-- Structural well-formedness of the state: all three JavaScript objects
have no duplicate keys (automatic for real objects). -/
def GoodState (s : ServerState) : Prop :=
  (s.rooms.map Prod.fst).Nodup ∧
  (∀ p ∈ s.rooms, (p.2.users.map Prod.fst).Nodup) ∧
  (s.socketToUserMap.map Prod.fst).Nodup

/-- Mutual consistency of room membership and the reverse index: every
member entry (room, username, socket) is mirrored by the reverse index
mapping that socket to exactly that username and room, and every
reverse-index entry points back to a matching member entry. -/
def Consistent (s : ServerState) : Prop :=
  (∀ p ∈ s.rooms, ∀ q ∈ p.2.users,
      lookupKey q.2.socketId s.socketToUserMap = some ⟨q.1, p.1⟩) ∧
  (∀ q ∈ s.socketToUserMap,
      Option.bind (lookupKey q.2.room s.rooms) (fun rm => lookupKey q.2.username rm.users)
        = some ⟨q.1, q.2.username⟩)

/-- Room lifecycle invariant: the default room always has an entry, and
every room entry is the default room or has at least one member. -/
def RoomsLive (s : ServerState) : Prop :=
  (lookupKey publicRoom s.rooms).isSome ∧
  ∀ p ∈ s.rooms, p.1 = publicRoom ∨ p.2.users ≠ []

/-- Restriction on event sequences: a connection only joins while it has
no active session, and an explicit leave names the room of the leaving
connection's own session. -/
def Allowed : Event → ServerState → Prop
  | Event.join_room sid _ _, s => lookupKey sid s.socketToUserMap = none
  | Event.leave_room sid roomId, s =>
      ∀ ui, lookupKey sid s.socketToUserMap = some ui → ui.room = resolveRoom roomId
  | _, _ => True

/-- States reachable from the initial state by `Allowed` events only. -/
inductive ReachableR : ServerState → Prop where
  | init : ReachableR initState
  | next {s : ServerState} (now : Nat) (ev : Event) :
      ReachableR s → Allowed ev s → ReachableR (stepState now ev s)

theorem reachableR_reachable {s : ServerState} (h : ReachableR s) : Reachable s := by
  induction h with
  | init => exact Reachable.init
  | next now ev _ _ ih => exact Reachable.next now ev ih

theorem stepState_some {now : Nat} {ev : Event} {s s' : ServerState} {outs : List Output}
    (h : step now ev s = some (s', outs)) : stepState now ev s = s' := by
  simp [stepState, h]

theorem stepState_none {now : Nat} {ev : Event} {s : ServerState}
    (h : step now ev s = none) : stepState now ev s = s := by
  simp [stepState, h]

theorem join_step_success {now : Nat} {s : ServerState} {sid raw : String}
    {roomId : Option String} {rm : Room}
    (hr : lookupKey (resolveRoom roomId) s.rooms = some rm)
    (hv : validateUsername (standardize raw) = none)
    (hu : lookupKey (standardize raw) rm.users = none) :
    step now (Event.join_room sid (some raw) roomId) s =
      some (⟨upsert (resolveRoom roomId)
               ⟨upsert (standardize raw) ⟨sid, standardize raw⟩ rm.users,
                rm.messages ++ [joinSysMsg now sid raw]⟩ s.rooms,
             upsert sid ⟨standardize raw, resolveRoom roomId⟩ s.socketToUserMap⟩,
            [Output.socketJoin sid (resolveRoom roomId),
             Output.emitTo sid (OutEvent.chat_history rm.messages),
             Output.emitRoom (resolveRoom roomId)
               (OutEvent.user_list
                 ((upsert (standardize raw) ⟨sid, standardize raw⟩ rm.users).map Prod.snd)),
             Output.emitRoom (resolveRoom roomId)
               (OutEvent.system_message (joinSysMsg now sid raw)),
             Output.emitTo sid OutEvent.join_success]) := by
  simp [step, joinRoomHandler, hv, hr, hu, doJoin]

theorem join_step_fresh {now : Nat} {s : ServerState} {sid raw : String}
    {roomId : Option String}
    (hr : lookupKey (resolveRoom roomId) s.rooms = none)
    (hv : validateUsername (standardize raw) = none) :
    step now (Event.join_room sid (some raw) roomId) s =
      some (⟨upsert (resolveRoom roomId)
               ⟨[(standardize raw, ⟨sid, standardize raw⟩)], [joinSysMsg now sid raw]⟩ s.rooms,
             upsert sid ⟨standardize raw, resolveRoom roomId⟩ s.socketToUserMap⟩,
            [Output.socketJoin sid (resolveRoom roomId),
             Output.emitTo sid (OutEvent.chat_history []),
             Output.emitRoom (resolveRoom roomId)
               (OutEvent.user_list [(⟨sid, standardize raw⟩ : UserInfo)]),
             Output.emitRoom (resolveRoom roomId)
               (OutEvent.system_message (joinSysMsg now sid raw)),
             Output.emitTo sid OutEvent.join_success]) := by
  simp [step, joinRoomHandler, hv, hr, doJoin, upsert]

theorem join_step_invalid {now : Nat} {s : ServerState} {sid raw : String}
    {roomId : Option String} {err : String}
    (hv : validateUsername (standardize raw) = some err) :
    step now (Event.join_room sid (some raw) roomId) s =
      some (s, [Output.emitTo sid (OutEvent.join_error err)]) := by
  simp [step, joinRoomHandler, hv]

theorem join_step_taken {now : Nat} {s : ServerState} {sid raw : String}
    {roomId : Option String} {rm : Room} {info : UserInfo}
    (hr : lookupKey (resolveRoom roomId) s.rooms = some rm)
    (hv : validateUsername (standardize raw) = none)
    (hu : lookupKey (standardize raw) rm.users = some info) :
    step now (Event.join_room sid (some raw) roomId) s =
      some (s, [Output.emitTo sid (OutEvent.join_error ("Username already taken in this room."))]) := by
  simp [step, joinRoomHandler, hv, hr, hu]

theorem send_step_valid {now : Nat} {s : ServerState} {sid : String}
    {md : MessageData} {roomId : Option String} {rm : Room}
    (hr : lookupKey (resolveRoom roomId) s.rooms = some rm)
    (hu : md.username ≠ "") (hm : md.message ≠ "") (ht : md.time ≠ "") :
    step now (Event.send_message sid (some md) roomId) s =
      some (⟨upsert (resolveRoom roomId)
               ⟨rm.users,
                rm.messages ++
                  [Message.chat md.username md.message md.time sid (toString now ++ "-" ++ sid)]⟩
               s.rooms,
             s.socketToUserMap⟩,
            [Output.emitRoom (resolveRoom roomId)
              (OutEvent.receive_message
                (Message.chat md.username md.message md.time sid (toString now ++ "-" ++ sid)))]) := by
  simp [step, sendMessageHandler, hr, hu, hm, ht]

theorem leave_step_success {now : Nat} {s : ServerState} {sid : String}
    {roomId : Option String} {ui : SessionInfo} {rm : Room} {info : UserInfo}
    (hsid : lookupKey sid s.socketToUserMap = some ui)
    (hr : lookupKey (resolveRoom roomId) s.rooms = some rm)
    (hu : lookupKey ui.username rm.users = some info) :
    step now (Event.leave_room sid roomId) s =
      some (removeFromRoom s sid (resolveRoom roomId) rm ui.username
              (leaveSysMsg now sid ui.username),
            [Output.emitRoom (resolveRoom roomId)
               (OutEvent.system_message (leaveSysMsg now sid ui.username)),
             Output.socketLeave sid (resolveRoom roomId),
             Output.emitRoom (resolveRoom roomId)
               (OutEvent.user_list ((eraseKey ui.username rm.users).map Prod.snd))]) := by
  simp [step, leaveRoomHandler, hsid, hr, hu]

theorem disconnect_step_success {now : Nat} {s : ServerState} {sid : String}
    {ui : SessionInfo} {rm : Room} {info : UserInfo}
    (hsid : lookupKey sid s.socketToUserMap = some ui)
    (hr : lookupKey ui.room s.rooms = some rm)
    (hu : lookupKey ui.username rm.users = some info) :
    step now (Event.disconnect sid) s =
      some (removeFromRoom s sid ui.room rm ui.username (leaveSysMsg now sid ui.username),
            [Output.emitRoomExcept ui.room sid
               (OutEvent.system_message (leaveSysMsg now sid ui.username)),
             Output.emitRoom ui.room
               (OutEvent.user_list ((eraseKey ui.username rm.users).map Prod.snd))]) := by
  simp [step, disconnectHandler, hsid, hr, hu]

theorem goodState_removeFromRoom {s : ServerState} {rm : Room}
    {sid room uname : String} {sysMsg : Message}
    (hg : GoodState s) (hr : lookupKey room s.rooms = some rm) :
    GoodState (removeFromRoom s sid room rm uname sysMsg) := by
  obtain ⟨hg1, hg2, hg3⟩ := hg
  have hrmnd := hg2 _ (lookupKey_eq_some_mem hr)
  refine ⟨?_, ?_, nodup_keys_eraseKey hg3⟩
  · simp only [removeFromRoom]
    split
    · exact nodup_keys_eraseKey (nodup_keys_upsert hg1)
    · exact nodup_keys_upsert hg1
  · intro p hp
    simp only [removeFromRoom] at hp
    have hp1 : p ∈ upsert room ⟨eraseKey uname rm.users, rm.messages ++ [sysMsg]⟩ s.rooms := by
      revert hp
      split
      · exact fun hp => mem_eraseKey hp
      · exact id
    rcases mem_upsert hp1 with h | h
    · simp only [h]
      exact nodup_keys_eraseKey hrmnd
    · exact hg2 _ h

theorem goodState_doJoin {now : Nat} {s : ServerState} {sid raw room : String}
    (hg : GoodState s) : GoodState (doJoin now s sid raw room).1 := by
  obtain ⟨hg1, hg2, hg3⟩ := hg
  rcases hr : lookupKey room s.rooms with _ | rm
  · simp only [doJoin, hr]
    refine ⟨nodup_keys_upsert hg1, ?_, nodup_keys_upsert hg3⟩
    intro p hp
    rcases mem_upsert hp with h | h
    · simp [h, upsert]
    · exact hg2 _ h
  · simp only [doJoin, hr]
    refine ⟨nodup_keys_upsert hg1, ?_, nodup_keys_upsert hg3⟩
    intro p hp
    rcases mem_upsert hp with h | h
    · have hnd := hg2 _ (lookupKey_eq_some_mem hr)
      simp only [h]
      exact nodup_keys_upsert hnd
    · exact hg2 _ h

theorem goodState_step (now : Nat) (ev : Event) {s : ServerState} (hg : GoodState s) :
    GoodState (stepState now ev s) := by
  cases ev with
  | check_room sid roomId =>
    simpa [stepState, step, checkRoomHandler] using hg
  | typing sid roomId =>
    rcases h1 : lookupKey sid s.socketToUserMap with _ | ui <;>
      rcases h2 : lookupKey (resolveRoom roomId) s.rooms with _ | rm <;>
      simpa [stepState, step, typingHandler, h1, h2] using hg
  | join_room sid username roomId =>
    cases username with
    | none => simpa [stepState, step, joinRoomHandler] using hg
    | some raw =>
      rcases hv : validateUsername (standardize raw) with _ | err
      · rcases hr : lookupKey (resolveRoom roomId) s.rooms with _ | rm
        · have hstep : step now (Event.join_room sid (some raw) roomId) s =
              some (doJoin now s sid raw (resolveRoom roomId)) := by
            simp [step, joinRoomHandler, hv, hr]
          simp only [stepState, hstep, Option.map_some, Option.getD_some]
          exact goodState_doJoin ⟨hg.1, hg.2.1, hg.2.2⟩
        · rcases hu : lookupKey (standardize raw) rm.users with _ | info
          · have hstep : step now (Event.join_room sid (some raw) roomId) s =
                some (doJoin now s sid raw (resolveRoom roomId)) := by
              simp [step, joinRoomHandler, hv, hr, hu]
            simp only [stepState, hstep, Option.map_some, Option.getD_some]
            exact goodState_doJoin ⟨hg.1, hg.2.1, hg.2.2⟩
          · rw [stepState_some (join_step_taken hr hv hu)]
            exact hg
      · rw [stepState_some (join_step_invalid hv)]
        exact hg
  | send_message sid md roomId =>
    cases md with
    | none => simpa [stepState, step, sendMessageHandler] using hg
    | some d =>
      by_cases hval : d.username ≠ "" ∧ d.message ≠ "" ∧ d.time ≠ ""
      · rcases hr : lookupKey (resolveRoom roomId) s.rooms with _ | rm
        · simpa [stepState, step, sendMessageHandler, hr, hval] using hg
        · rw [stepState_some (send_step_valid hr hval.1 hval.2.1 hval.2.2)]
          obtain ⟨hg1, hg2, hg3⟩ := hg
          refine ⟨nodup_keys_upsert hg1, ?_, hg3⟩
          intro p hp
          rcases mem_upsert hp with h | h
          · have hnd := hg2 _ (lookupKey_eq_some_mem hr)
            simp only [h]
            exact hnd
          · exact hg2 _ h
      · simpa [stepState, step, sendMessageHandler, hval] using hg
  | leave_room sid roomId =>
    rcases h1 : lookupKey sid s.socketToUserMap with _ | ui
    · simpa [stepState, step, leaveRoomHandler, h1] using hg
    · rcases h2 : lookupKey (resolveRoom roomId) s.rooms with _ | rm
      · simpa [stepState, step, leaveRoomHandler, h1, h2] using hg
      · rcases h3 : lookupKey ui.username rm.users with _ | info
        · simpa [stepState, step, leaveRoomHandler, h1, h2, h3] using hg
        · rw [stepState_some (leave_step_success h1 h2 h3)]
          exact goodState_removeFromRoom hg h2
  | disconnect sid =>
    rcases h1 : lookupKey sid s.socketToUserMap with _ | ui
    · simpa [stepState, step, disconnectHandler, h1] using hg
    · rcases h2 : lookupKey ui.room s.rooms with _ | rm
      · have hstep : step now (Event.disconnect sid) s =
            some (⟨s.rooms, eraseKey sid s.socketToUserMap⟩, []) := by
          simp [step, disconnectHandler, h1, h2]
        rw [stepState_some hstep]
        exact ⟨hg.1, hg.2.1, nodup_keys_eraseKey hg.2.2⟩
      · rcases h3 : lookupKey ui.username rm.users with _ | info
        · have hstep : step now (Event.disconnect sid) s =
              some (⟨s.rooms, eraseKey sid s.socketToUserMap⟩, []) := by
            simp [step, disconnectHandler, h1, h2, h3]
          rw [stepState_some hstep]
          exact ⟨hg.1, hg.2.1, nodup_keys_eraseKey hg.2.2⟩
        · rw [stepState_some (disconnect_step_success h1 h2 h3)]
          exact goodState_removeFromRoom hg h2

theorem reachable_goodState {s : ServerState} (h : Reachable s) : GoodState s := by
  induction h with
  | init =>
    refine ⟨?_, ?_, ?_⟩ <;> simp [initState]
  | next now ev _ ih => exact goodState_step now ev ih

theorem roomsLive_removeFromRoom {s : ServerState} {rm : Room}
    {sid room uname : String} {sysMsg : Message}
    (hg : GoodState s) (hl : RoomsLive s) (_hr : lookupKey room s.rooms = some rm) :
    RoomsLive (removeFromRoom s sid room rm uname sysMsg) := by
  obtain ⟨hl1, hl2⟩ := hl
  by_cases hc : room ≠ publicRoom ∧ eraseKey uname rm.users = []
  · constructor
    · simp only [removeFromRoom, if_pos hc]
      rw [lookupKey_eraseKey_ne _ (Ne.symm hc.1), lookupKey_upsert_ne _ _ (Ne.symm hc.1)]
      exact hl1
    · intro p hp
      simp only [removeFromRoom, if_pos hc] at hp
      have hnd1 := nodup_keys_upsert
        (k := room) (v := (⟨eraseKey uname rm.users, rm.messages ++ [sysMsg]⟩ : Room)) hg.1
      have hme := mem_eraseKey_of_nodup hnd1 hp
      rcases mem_upsert hme.1 with h1 | h1
      · exact absurd (by rw [h1]) hme.2
      · exact hl2 _ h1
  · constructor
    · simp only [removeFromRoom, if_neg hc]
      by_cases hpr : room = publicRoom
      · rw [hpr, lookupKey_upsert_self]
        simp
      · rw [lookupKey_upsert_ne _ _ (fun he => hpr he.symm)]
        exact hl1
    · intro p hp
      simp only [removeFromRoom, if_neg hc] at hp
      rcases mem_upsert hp with h1 | h1
      · simp only [h1]
        rcases not_and_or.mp hc with h2 | h2
        · exact Or.inl (not_not.mp h2)
        · exact Or.inr h2
      · exact hl2 _ h1

theorem roomsLive_doJoin {now : Nat} {s : ServerState} {sid raw room : String}
    (hl : RoomsLive s) : RoomsLive (doJoin now s sid raw room).1 := by
  obtain ⟨hl1, hl2⟩ := hl
  rcases hr : lookupKey room s.rooms with _ | rm
  · simp only [doJoin, hr]
    constructor
    · by_cases hpr : room = publicRoom
      · rw [hpr, lookupKey_upsert_self]
        simp
      · rw [lookupKey_upsert_ne _ _ (fun he => hpr he.symm)]
        exact hl1
    · intro p hp
      rcases mem_upsert hp with h1 | h1
      · simp only [h1]
        exact Or.inr (upsert_ne_nil _ _ _)
      · exact hl2 _ h1
  · simp only [doJoin, hr]
    constructor
    · by_cases hpr : room = publicRoom
      · rw [hpr, lookupKey_upsert_self]
        simp
      · rw [lookupKey_upsert_ne _ _ (fun he => hpr he.symm)]
        exact hl1
    · intro p hp
      rcases mem_upsert hp with h1 | h1
      · simp only [h1]
        exact Or.inr (upsert_ne_nil _ _ _)
      · exact hl2 _ h1

theorem roomsLive_step (now : Nat) (ev : Event) {s : ServerState}
    (hg : GoodState s) (hl : RoomsLive s) : RoomsLive (stepState now ev s) := by
  cases ev with
  | check_room sid roomId =>
    simpa [stepState, step, checkRoomHandler] using hl
  | typing sid roomId =>
    rcases h1 : lookupKey sid s.socketToUserMap with _ | ui <;>
      rcases h2 : lookupKey (resolveRoom roomId) s.rooms with _ | rm <;>
      simpa [stepState, step, typingHandler, h1, h2] using hl
  | join_room sid username roomId =>
    cases username with
    | none => simpa [stepState, step, joinRoomHandler] using hl
    | some raw =>
      rcases hv : validateUsername (standardize raw) with _ | err
      · rcases hr : lookupKey (resolveRoom roomId) s.rooms with _ | rm
        · have hstep : step now (Event.join_room sid (some raw) roomId) s =
              some (doJoin now s sid raw (resolveRoom roomId)) := by
            simp [step, joinRoomHandler, hv, hr]
          simp only [stepState, hstep, Option.map_some, Option.getD_some]
          exact roomsLive_doJoin ⟨hl.1, hl.2⟩
        · rcases hu : lookupKey (standardize raw) rm.users with _ | info
          · have hstep : step now (Event.join_room sid (some raw) roomId) s =
                some (doJoin now s sid raw (resolveRoom roomId)) := by
              simp [step, joinRoomHandler, hv, hr, hu]
            simp only [stepState, hstep, Option.map_some, Option.getD_some]
            exact roomsLive_doJoin ⟨hl.1, hl.2⟩
          · rw [stepState_some (join_step_taken hr hv hu)]
            exact hl
      · rw [stepState_some (join_step_invalid hv)]
        exact hl
  | send_message sid md roomId =>
    cases md with
    | none => simpa [stepState, step, sendMessageHandler] using hl
    | some d =>
      by_cases hval : d.username ≠ "" ∧ d.message ≠ "" ∧ d.time ≠ ""
      · rcases hr : lookupKey (resolveRoom roomId) s.rooms with _ | rm
        · simpa [stepState, step, sendMessageHandler, hr, hval] using hl
        · rw [stepState_some (send_step_valid hr hval.1 hval.2.1 hval.2.2)]
          obtain ⟨hl1, hl2⟩ := hl
          constructor
          · by_cases hpr : resolveRoom roomId = publicRoom
            · rw [hpr, lookupKey_upsert_self]
              simp
            · rw [lookupKey_upsert_ne _ _ (fun he => hpr he.symm)]
              exact hl1
          · intro p hp
            rcases mem_upsert hp with h1 | h1
            · simp only [h1]
              have := hl2 _ (lookupKey_eq_some_mem hr)
              simpa using this
            · exact hl2 _ h1
      · simpa [stepState, step, sendMessageHandler, hval] using hl
  | leave_room sid roomId =>
    rcases h1 : lookupKey sid s.socketToUserMap with _ | ui
    · simpa [stepState, step, leaveRoomHandler, h1] using hl
    · rcases h2 : lookupKey (resolveRoom roomId) s.rooms with _ | rm
      · simpa [stepState, step, leaveRoomHandler, h1, h2] using hl
      · rcases h3 : lookupKey ui.username rm.users with _ | info
        · simpa [stepState, step, leaveRoomHandler, h1, h2, h3] using hl
        · rw [stepState_some (leave_step_success h1 h2 h3)]
          exact roomsLive_removeFromRoom hg hl h2
  | disconnect sid =>
    rcases h1 : lookupKey sid s.socketToUserMap with _ | ui
    · simpa [stepState, step, disconnectHandler, h1] using hl
    · rcases h2 : lookupKey ui.room s.rooms with _ | rm
      · have hstep : step now (Event.disconnect sid) s =
            some (⟨s.rooms, eraseKey sid s.socketToUserMap⟩, []) := by
          simp [step, disconnectHandler, h1, h2]
        rw [stepState_some hstep]
        exact ⟨hl.1, hl.2⟩
      · rcases h3 : lookupKey ui.username rm.users with _ | info
        · have hstep : step now (Event.disconnect sid) s =
              some (⟨s.rooms, eraseKey sid s.socketToUserMap⟩, []) := by
            simp [step, disconnectHandler, h1, h2, h3]
          rw [stepState_some hstep]
          exact ⟨hl.1, hl.2⟩
        · rw [stepState_some (disconnect_step_success h1 h2 h3)]
          exact roomsLive_removeFromRoom hg hl h2

theorem reachable_roomsLive {s : ServerState} (h : Reachable s) : RoomsLive s := by
  induction h with
  | init => exact ⟨by decide, by decide⟩
  | next now ev hprev ih => exact roomsLive_step now ev (reachable_goodState hprev) ih

theorem consistent_removeSession {s : ServerState} {sid : String} {ui : SessionInfo}
    {rm : Room} {sysMsg : Message}
    (hg : GoodState s) (hc : Consistent s)
    (hsid : lookupKey sid s.socketToUserMap = some ui)
    (hr : lookupKey ui.room s.rooms = some rm) :
    Consistent (removeFromRoom s sid ui.room rm ui.username sysMsg) := by
  obtain ⟨hg1, hg2, hg3⟩ := hg
  obtain ⟨hcF, hcB⟩ := hc
  have hback : lookupKey ui.username rm.users = some ⟨sid, ui.username⟩ := by
    have hb := hcB _ (lookupKey_eq_some_mem hsid)
    rw [hr] at hb
    simpa using hb
  have hrmnd := hg2 _ (lookupKey_eq_some_mem hr)
  constructor
  · intro p hp q hq
    simp only [removeFromRoom] at hp hq ⊢
    have hp1 : p ∈ upsert ui.room ⟨eraseKey ui.username rm.users, rm.messages ++ [sysMsg]⟩ s.rooms := by
      revert hp
      split
      · exact fun hp => mem_eraseKey hp
      · exact id
    rcases mem_upsert_of_nodup hg1 hp1 with h | h
    · subst h
      have hqe := mem_eraseKey_of_nodup hrmnd hq
      have hqf := hcF (ui.room, rm) (lookupKey_eq_some_mem hr) q hqe.1
      have hne : q.2.socketId ≠ sid := by
        intro he
        rw [he, hsid] at hqf
        have huq : ui = ⟨q.1, ui.room⟩ := Option.some.inj hqf
        exact hqe.2 (by rw [huq])
      rw [lookupKey_eraseKey_ne _ hne]
      exact hqf
    · have hqf := hcF p h.1 q hq
      have hne : q.2.socketId ≠ sid := by
        intro he
        rw [he, hsid] at hqf
        have huq : ui = ⟨q.1, p.1⟩ := Option.some.inj hqf
        exact h.2 (by rw [huq])
      rw [lookupKey_eraseKey_ne _ hne]
      exact hqf
  · intro q hq
    simp only [removeFromRoom] at hq ⊢
    have hqe := mem_eraseKey_of_nodup hg3 hq
    have hb := hcB _ hqe.1
    by_cases hqr : q.2.room = ui.room
    · rw [hqr] at hb ⊢
      rw [hr] at hb
      simp only [Option.some_bind] at hb
      have hqu : q.2.username ≠ ui.username := by
        intro he
        rw [he, hback] at hb
        exact hqe.2 (congrArg UserInfo.socketId (Option.some.inj hb)).symm
      have hlu : lookupKey q.2.username (eraseKey ui.username rm.users)
          = some ⟨q.1, q.2.username⟩ := by
        rw [lookupKey_eraseKey_ne _ hqu]
        exact hb
      have husers1ne : eraseKey ui.username rm.users ≠ [] := by
        intro he
        rw [he] at hlu
        simp [lookupKey] at hlu
      have hcond : ¬(ui.room ≠ publicRoom ∧ eraseKey ui.username rm.users = []) :=
        fun hcc => husers1ne hcc.2
      rw [if_neg hcond, lookupKey_upsert_self]
      simpa using hlu
    · have hTr : lookupKey q.2.room
          (if ui.room ≠ publicRoom ∧ eraseKey ui.username rm.users = [] then
            eraseKey ui.room
              (upsert ui.room ⟨eraseKey ui.username rm.users, rm.messages ++ [sysMsg]⟩ s.rooms)
          else
            upsert ui.room ⟨eraseKey ui.username rm.users, rm.messages ++ [sysMsg]⟩ s.rooms)
          = lookupKey q.2.room s.rooms := by
        split
        · rw [lookupKey_eraseKey_ne _ hqr, lookupKey_upsert_ne _ _ hqr]
        · rw [lookupKey_upsert_ne _ _ hqr]
      rw [hTr]
      exact hb

theorem consistent_doJoin {now : Nat} {s : ServerState} {sid raw room : String}
    (hg : GoodState s) (hc : Consistent s)
    (hstu : lookupKey sid s.socketToUserMap = none)
    (hfree : ∀ rm, lookupKey room s.rooms = some rm →
      lookupKey (standardize raw) rm.users = none) :
    Consistent (doJoin now s sid raw room).1 := by
  obtain ⟨hg1, hg2, hg3⟩ := hg
  obtain ⟨hcF, hcB⟩ := hc
  have hqne : ∀ q ∈ s.socketToUserMap, q.1 ≠ sid :=
    (lookupKey_eq_none_iff _ _).mp hstu
  rcases hr : lookupKey room s.rooms with _ | rm
  · simp only [doJoin, hr]
    constructor
    · intro p hp q hq
      rcases mem_upsert_of_nodup hg1 hp with h | h
      · subst h
        have hq1 : q = (standardize raw, (⟨sid, standardize raw⟩ : UserInfo)) := by
          rcases mem_upsert hq with h1 | h1
          · exact h1
          · simp at h1
        subst hq1
        rw [lookupKey_upsert_self]
      · have hqf := hcF p h.1 q hq
        have hne : q.2.socketId ≠ sid := by
          intro he
          rw [he, hstu] at hqf
          cases hqf
        rw [lookupKey_upsert_ne _ _ hne]
        exact hqf
    · intro q hq
      rcases mem_upsert hq with h | h
      · subst h
        rw [lookupKey_upsert_self]
        simp only [Option.some_bind]
        rw [lookupKey_upsert_self]
      · have hb := hcB _ h
        by_cases hqr : q.2.room = room
        · rw [hqr, hr] at hb
          cases hb
        · rw [lookupKey_upsert_ne _ _ hqr]
          exact hb
  · simp only [doJoin, hr]
    have hrmnd := hg2 _ (lookupKey_eq_some_mem hr)
    have hfree1 := hfree rm hr
    constructor
    · intro p hp q hq
      rcases mem_upsert_of_nodup hg1 hp with h | h
      · subst h
        rcases mem_upsert_of_nodup hrmnd hq with h1 | h1
        · subst h1
          rw [lookupKey_upsert_self]
        · have hqf := hcF (room, rm) (lookupKey_eq_some_mem hr) q h1.1
          have hne : q.2.socketId ≠ sid := by
            intro he
            rw [he, hstu] at hqf
            cases hqf
          rw [lookupKey_upsert_ne _ _ hne]
          exact hqf
      · have hqf := hcF p h.1 q hq
        have hne : q.2.socketId ≠ sid := by
          intro he
          rw [he, hstu] at hqf
          cases hqf
        rw [lookupKey_upsert_ne _ _ hne]
        exact hqf
    · intro q hq
      rcases mem_upsert hq with h | h
      · subst h
        rw [lookupKey_upsert_self]
        simp only [Option.some_bind]
        rw [lookupKey_upsert_self]
      · have hb := hcB _ h
        by_cases hqr : q.2.room = room
        · rw [hqr] at hb ⊢
          rw [hr] at hb
          simp only [Option.some_bind] at hb
          have hqu : q.2.username ≠ standardize raw := by
            intro he
            rw [he, hfree1] at hb
            cases hb
          rw [lookupKey_upsert_self]
          simp only [Option.some_bind]
          rw [lookupKey_upsert_ne _ _ hqu]
          exact hb
        · rw [lookupKey_upsert_ne _ _ hqr]
          exact hb

theorem consistent_step (now : Nat) (ev : Event) {s : ServerState}
    (hg : GoodState s) (hc : Consistent s) (ha : Allowed ev s) :
    Consistent (stepState now ev s) := by
  cases ev with
  | check_room sid roomId =>
    simpa [stepState, step, checkRoomHandler] using hc
  | typing sid roomId =>
    rcases h1 : lookupKey sid s.socketToUserMap with _ | ui <;>
      rcases h2 : lookupKey (resolveRoom roomId) s.rooms with _ | rm <;>
      simpa [stepState, step, typingHandler, h1, h2] using hc
  | join_room sid username roomId =>
    have hstu : lookupKey sid s.socketToUserMap = none := ha
    cases username with
    | none => simpa [stepState, step, joinRoomHandler] using hc
    | some raw =>
      rcases hv : validateUsername (standardize raw) with _ | err
      · rcases hr : lookupKey (resolveRoom roomId) s.rooms with _ | rm
        · have hstep : step now (Event.join_room sid (some raw) roomId) s =
              some (doJoin now s sid raw (resolveRoom roomId)) := by
            simp [step, joinRoomHandler, hv, hr]
          simp only [stepState, hstep, Option.map_some, Option.getD_some]
          exact consistent_doJoin ⟨hg.1, hg.2.1, hg.2.2⟩ hc hstu
            (fun rm' hrm' => by rw [hr] at hrm'; cases hrm')
        · rcases hu : lookupKey (standardize raw) rm.users with _ | info
          · have hstep : step now (Event.join_room sid (some raw) roomId) s =
                some (doJoin now s sid raw (resolveRoom roomId)) := by
              simp [step, joinRoomHandler, hv, hr, hu]
            simp only [stepState, hstep, Option.map_some, Option.getD_some]
            exact consistent_doJoin ⟨hg.1, hg.2.1, hg.2.2⟩ hc hstu
              (fun rm' hrm' => by rw [hr] at hrm'; cases hrm'; exact hu)
          · rw [stepState_some (join_step_taken hr hv hu)]
            exact hc
      · rw [stepState_some (join_step_invalid hv)]
        exact hc
  | send_message sid md roomId =>
    cases md with
    | none => simpa [stepState, step, sendMessageHandler] using hc
    | some d =>
      by_cases hval : d.username ≠ "" ∧ d.message ≠ "" ∧ d.time ≠ ""
      · rcases hr : lookupKey (resolveRoom roomId) s.rooms with _ | rm
        · simpa [stepState, step, sendMessageHandler, hr, hval] using hc
        · rw [stepState_some (send_step_valid hr hval.1 hval.2.1 hval.2.2)]
          obtain ⟨hcF, hcB⟩ := hc
          constructor
          · intro p hp q hq
            rcases mem_upsert hp with h | h
            · subst h
              exact hcF (resolveRoom roomId, rm) (lookupKey_eq_some_mem hr) q hq
            · exact hcF p h q hq
          · intro q hq
            have hb := hcB _ hq
            by_cases hqr : q.2.room = resolveRoom roomId
            · rw [hqr] at hb ⊢
              rw [hr] at hb
              simp only [Option.some_bind] at hb
              rw [lookupKey_upsert_self]
              simpa using hb
            · rw [lookupKey_upsert_ne _ _ hqr]
              exact hb
      · simpa [stepState, step, sendMessageHandler, hval] using hc
  | leave_room sid roomId =>
    rcases h1 : lookupKey sid s.socketToUserMap with _ | ui
    · simpa [stepState, step, leaveRoomHandler, h1] using hc
    · have hroom : ui.room = resolveRoom roomId := ha ui h1
      rcases h2 : lookupKey (resolveRoom roomId) s.rooms with _ | rm
      · simpa [stepState, step, leaveRoomHandler, h1, h2] using hc
      · rcases h3 : lookupKey ui.username rm.users with _ | info
        · simpa [stepState, step, leaveRoomHandler, h1, h2, h3] using hc
        · rw [stepState_some (leave_step_success h1 h2 h3)]
          rw [← hroom]
          exact consistent_removeSession ⟨hg.1, hg.2.1, hg.2.2⟩ hc h1
            (by rw [hroom]; exact h2)
  | disconnect sid =>
    rcases h1 : lookupKey sid s.socketToUserMap with _ | ui
    · simpa [stepState, step, disconnectHandler, h1] using hc
    · rcases h2 : lookupKey ui.room s.rooms with _ | rm
      · have hb := hc.2 _ (lookupKey_eq_some_mem h1)
        rw [h2] at hb
        cases hb
      · rcases h3 : lookupKey ui.username rm.users with _ | info
        · have hb := hc.2 _ (lookupKey_eq_some_mem h1)
          rw [h2] at hb
          simp only [Option.some_bind] at hb
          rw [h3] at hb
          cases hb
        · rw [stepState_some (disconnect_step_success h1 h2 h3)]
          exact consistent_removeSession ⟨hg.1, hg.2.1, hg.2.2⟩ hc h1 h2

theorem reachableR_consistent {s : ServerState} (h : ReachableR s) : Consistent s := by
  induction h with
  | init => exact ⟨by decide, by decide⟩
  | next now ev hR ha ih =>
    exact consistent_step now ev (reachable_goodState (reachableR_reachable hR)) ih ha

/-- Exact characterization of the payloads and states on which a handler
raises a TypeError: a `join_room` payload without a username field, and a
valid `send_message` payload whose resolved room has no entry. -/
def stepFaults : Event → ServerState → Prop
  | Event.join_room _ none _, _ => True
  | Event.send_message _ (some md) roomId, s =>
      md.username ≠ "" ∧ md.message ≠ "" ∧ md.time ≠ "" ∧
        lookupKey (resolveRoom roomId) s.rooms = none
  | _, _ => False

/-- The member list of a room, empty when the room has no entry. -/
def roomUsers (s : ServerState) (r : String) : List (String × UserInfo) :=
  match lookupKey r s.rooms with
  | some rm => rm.users
  | none => []

theorem join_some_step_isSome (now : Nat) (s : ServerState) (sid raw : String)
    (roomId : Option String) :
    (step now (Event.join_room sid (some raw) roomId) s).isSome = true := by
  rcases hv : validateUsername (standardize raw) with _ | err
  · rcases hr : lookupKey (resolveRoom roomId) s.rooms with _ | rm
    · simp [step, joinRoomHandler, hv, hr]
    · rcases hu : lookupKey (standardize raw) rm.users with _ | info <;>
        simp [step, joinRoomHandler, hv, hr, hu]
  · simp [step, joinRoomHandler, hv]

/-- Claim C1 counterexample: the claim that no inbound event can crash the
process is false.  From the initial (trivially reachable) state, a
`send_message` with a fully valid payload naming a room with no entry
faults, because `rooms[room].messages` dereferences `undefined`. -/
theorem send_message_crash_counterexample :
    Reachable initState ∧
      step 0 (Event.send_message ("s1") (some ⟨"alice12!", "hi", "t1"⟩) (some ("nowhere")))
        initState = none :=
  ⟨Reachable.init, by decide⟩

/-- Claim C1 (amended): processing an inbound event faults exactly when the
event is a `join_room` whose payload lacks the username field, or a
`send_message` whose payload passes the validity check but whose resolved
room has no entry in the rooms table.  Every other event, in every state,
is handled without a fault; in particular the absence of an expected
session or room in `check_room`, `typing`, `leave_room` and `disconnect`
is a guarded no-op. -/
theorem step_fault_characterization (now : Nat) (ev : Event) (s : ServerState) :
    step now ev s = none ↔ stepFaults ev s := by
  cases ev with
  | check_room sid roomId => simp [step, checkRoomHandler, stepFaults]
  | typing sid roomId =>
    rcases h1 : lookupKey sid s.socketToUserMap with _ | ui <;>
      rcases h2 : lookupKey (resolveRoom roomId) s.rooms with _ | rm <;>
      simp [step, typingHandler, h1, h2, stepFaults]
  | join_room sid username roomId =>
    cases username with
    | none => simp [step, joinRoomHandler, stepFaults]
    | some raw =>
      have hs := join_some_step_isSome now s sid raw roomId
      constructor
      · intro h
        rw [h] at hs
        cases hs
      · intro h
        exact absurd h (by simp [stepFaults])
  | send_message sid md roomId =>
    cases md with
    | none => simp [step, sendMessageHandler, stepFaults]
    | some d =>
      by_cases hval : d.username ≠ "" ∧ d.message ≠ "" ∧ d.time ≠ ""
      · rcases hr : lookupKey (resolveRoom roomId) s.rooms with _ | rm
        · simp [step, sendMessageHandler, hr, hval, stepFaults, hval.1, hval.2.1, hval.2.2]
        · constructor
          · intro h
            exfalso
            simp [step, sendMessageHandler, hr, hval] at h
          · rintro ⟨h1, h2, h3, h4⟩
            rw [hr] at h4
            cases h4
      · constructor
        · intro h
          exfalso
          simp [step, sendMessageHandler, hval] at h
        · rintro ⟨h1, h2, h3, h4⟩
          exact absurd ⟨h1, h2, h3⟩ hval
  | leave_room sid roomId =>
    rcases h1 : lookupKey sid s.socketToUserMap with _ | ui
    · simp [step, leaveRoomHandler, h1, stepFaults]
    · rcases h2 : lookupKey (resolveRoom roomId) s.rooms with _ | rm
      · simp [step, leaveRoomHandler, h1, h2, stepFaults]
      · rcases h3 : lookupKey ui.username rm.users with _ | info <;>
          simp [step, leaveRoomHandler, h1, h2, h3, stepFaults]
  | disconnect sid =>
    rcases h1 : lookupKey sid s.socketToUserMap with _ | ui
    · simp [step, disconnectHandler, h1, stepFaults]
    · rcases h2 : lookupKey ui.room s.rooms with _ | rm
      · simp [step, disconnectHandler, h1, h2, stepFaults]
      · rcases h3 : lookupKey ui.username rm.users with _ | info <;>
          simp [step, disconnectHandler, h1, h2, h3, stepFaults]

def c2ev1 : Event := Event.join_room ("s1") (some ("user12!")) (some ("rooma"))

def c2ev2 : Event := Event.join_room ("s1") (some ("user34!")) (some ("roomb"))

def c2bad : ServerState := stepState 1 c2ev2 (stepState 0 c2ev1 initState)

/-- Claim C2 counterexample: the mutual-consistency invariant fails on a
reachable state.  Connection s1 joins room rooma and then, without
leaving, joins room roomb: the second join overwrites the reverse-index
entry but leaves the stale membership of s1 in rooma behind, so the
member entry (rooma, user12!, s1) no longer matches the reverse index. -/
theorem rejoin_inconsistency_counterexample : Reachable c2bad ∧ ¬ Consistent c2bad :=
  ⟨Reachable.next 1 c2ev2 (Reachable.next 0 c2ev1 Reachable.init),
   by unfold Consistent; decide⟩

/-- Claim C2 (amended): room membership and the connection-keyed reverse
index are mutually consistent in every state reachable under the
restriction that a connection only joins while it holds no active session
and that every `leave_room` resolves to the room of the leaving
connection's own session.  Without the restriction the invariant fails:
a second join by an already-joined connection leaves a stale membership
behind, and a cross-room `leave_room` removes another connection's
membership (see the counterexample). -/
theorem restricted_reachable_consistent (s : ServerState) (h : ReachableR s) :
    Consistent s :=
  reachableR_consistent h

theorem restricted_reachable_consistent_witness :
    Consistent (stepState 0 c2ev1 initState) :=
  restricted_reachable_consistent _ (ReachableR.next 0 c2ev1 ReachableR.init rfl)

def c3room : Room :=
  ⟨[("alice123!", ⟨"s1", "alice123!"⟩)],
   [Message.system ("alice123! joined the chat") ("0") ("system-0-s1"),
    Message.chat ("alice123!") ("hello") ("t1") ("s1") ("5-s1")]⟩

def c3state : ServerState :=
  ⟨[(publicRoom, ⟨[], []⟩), ("team", c3room)],
   [("s1", ⟨"alice123!", "team"⟩)]⟩

/-- Claim C3: a successful join delivers, to the joining connection alone,
exactly the records stored in the room history, in stored order, before
the join's own system record is created; the join record is broadcast to
the room afterwards (later in the effect list) and, as long as its fresh
server-assigned id does not occur in the stored history, it is not inside
the delivered history. -/
theorem join_history_delivery {now : Nat} {s : ServerState} {sid raw : String}
    {roomId : Option String} {rm : Room}
    (hr : lookupKey (resolveRoom roomId) s.rooms = some rm)
    (hv : validateUsername (standardize raw) = none)
    (hu : lookupKey (standardize raw) rm.users = none)
    (hfresh : ∀ m ∈ rm.messages, msgId m ≠ "system-" ++ toString now ++ "-" ++ sid) :
    step now (Event.join_room sid (some raw) roomId) s =
      some (⟨upsert (resolveRoom roomId)
               ⟨upsert (standardize raw) ⟨sid, standardize raw⟩ rm.users,
                rm.messages ++ [joinSysMsg now sid raw]⟩ s.rooms,
             upsert sid ⟨standardize raw, resolveRoom roomId⟩ s.socketToUserMap⟩,
            [Output.socketJoin sid (resolveRoom roomId),
             Output.emitTo sid (OutEvent.chat_history rm.messages),
             Output.emitRoom (resolveRoom roomId)
               (OutEvent.user_list
                 ((upsert (standardize raw) ⟨sid, standardize raw⟩ rm.users).map Prod.snd)),
             Output.emitRoom (resolveRoom roomId)
               (OutEvent.system_message (joinSysMsg now sid raw)),
             Output.emitTo sid OutEvent.join_success]) ∧
    joinSysMsg now sid raw ∉ rm.messages := by
  refine ⟨join_step_success hr hv hu, ?_⟩
  intro hmem
  exact hfresh _ hmem rfl

theorem join_history_delivery_witness :
    joinSysMsg 7 ("s2") ("bob45?") ∉ c3room.messages ∧
      (step 7 (Event.join_room ("s2") (some ("bob45?")) (some ("team"))) c3state).isSome = true := by
  have h := @join_history_delivery 7 c3state ("s2") ("bob45?") (some ("team")) c3room
    (by decide) (by decide) (by decide) (by decide)
  refine ⟨h.2, ?_⟩
  rw [h.1]
  rfl

/-- Claim C4 counterexample: the claim that the join system record is
appended to the history before the history is delivered to the joiner is
false.  On the first join to the initial state the joiner receives the
history `[]` (not containing its join record), while the final room
history holds exactly the join record. -/
theorem join_append_order_counterexample :
    step 0 (Event.join_room ("s1") (some ("user12!")) none) initState =
      some (⟨[(publicRoom,
               ⟨[("user12!", ⟨"s1", "user12!"⟩)],
                [Message.system ("user12! joined the chat") ("0") ("system-0-s1")]⟩)],
             [("s1", ⟨"user12!", publicRoom⟩)]⟩,
            [Output.socketJoin ("s1") publicRoom,
             Output.emitTo ("s1") (OutEvent.chat_history []),
             Output.emitRoom publicRoom
               (OutEvent.user_list [⟨"s1", "user12!"⟩]),
             Output.emitRoom publicRoom
               (OutEvent.system_message
                 (Message.system ("user12! joined the chat") ("0") ("system-0-s1"))),
             Output.emitTo ("s1") OutEvent.join_success]) ∧
      Message.system ("user12! joined the chat") ("0") ("system-0-s1") ∉ ([] : List Message) :=
  ⟨by decide, by decide⟩

/-- Claim C4 (amended): in a successful join the history is delivered to
the joiner first, as stored before the join, and the join system record
is appended to the room history and broadcast afterwards, so the
delivered history does not yet contain the joiner's own join record. -/
theorem join_history_before_append {now : Nat} {s : ServerState} {sid raw : String}
    {roomId : Option String} {rm : Room}
    (hr : lookupKey (resolveRoom roomId) s.rooms = some rm)
    (hv : validateUsername (standardize raw) = none)
    (hu : lookupKey (standardize raw) rm.users = none) :
    ∃ s' outs, step now (Event.join_room sid (some raw) roomId) s = some (s', outs) ∧
      outs.get? 1 = some (Output.emitTo sid (OutEvent.chat_history rm.messages)) ∧
      outs.get? 3 = some (Output.emitRoom (resolveRoom roomId)
        (OutEvent.system_message (joinSysMsg now sid raw))) ∧
      lookupKey (resolveRoom roomId) s'.rooms =
        some ⟨upsert (standardize raw) ⟨sid, standardize raw⟩ rm.users,
              rm.messages ++ [joinSysMsg now sid raw]⟩ := by
  refine ⟨_, _, join_step_success hr hv hu, rfl, rfl, ?_⟩
  exact lookupKey_upsert_self _ _ _

theorem join_history_before_append_witness :
    (step 9 (Event.join_room ("s3") (some ("carol77#")) (some ("team"))) c3state).isSome = true := by
  obtain ⟨s', outs, h1, -, -, -⟩ := @join_history_before_append 9 c3state ("s3") ("carol77#")
    (some ("team")) c3room (by decide) (by decide) (by decide)
  rw [h1]
  rfl

/-- Claim C5: in every reachable state a room entry exists only if it is
the permanent default room or has at least one member, and the default
room always has an entry; when the last member leaves a non-default room
(by `leave_room` or `disconnect`) the room entry is deleted; `check_room`
on a name with no room entry replies false; and a join into a name with
no room entry creates a fresh room, delivering the empty history to the
joiner and leaving exactly the join record as the new history. -/
theorem room_lifecycle :
    (∀ s : ServerState, Reachable s → RoomsLive s) ∧
    (∀ (now : Nat) (s : ServerState) (sid : String) (roomId : Option String)
       (ui : SessionInfo) (rm : Room) (info : UserInfo),
       Reachable s →
       lookupKey sid s.socketToUserMap = some ui →
       lookupKey (resolveRoom roomId) s.rooms = some rm →
       lookupKey ui.username rm.users = some info →
       eraseKey ui.username rm.users = [] →
       resolveRoom roomId ≠ publicRoom →
       lookupKey (resolveRoom roomId)
         (stepState now (Event.leave_room sid roomId) s).rooms = none) ∧
    (∀ (now : Nat) (s : ServerState) (sid : String)
       (ui : SessionInfo) (rm : Room) (info : UserInfo),
       Reachable s →
       lookupKey sid s.socketToUserMap = some ui →
       lookupKey ui.room s.rooms = some rm →
       lookupKey ui.username rm.users = some info →
       eraseKey ui.username rm.users = [] →
       ui.room ≠ publicRoom →
       lookupKey ui.room (stepState now (Event.disconnect sid) s).rooms = none) ∧
    (∀ (now : Nat) (s : ServerState) (sid : String) (roomId : Option String),
       lookupKey (resolveRoom roomId) s.rooms = none →
       step now (Event.check_room sid roomId) s = some (s, [Output.reply sid false])) ∧
    (∀ (now : Nat) (s : ServerState) (sid raw : String) (roomId : Option String),
       lookupKey (resolveRoom roomId) s.rooms = none →
       validateUsername (standardize raw) = none →
       step now (Event.join_room sid (some raw) roomId) s =
         some (⟨upsert (resolveRoom roomId)
                  ⟨[(standardize raw, ⟨sid, standardize raw⟩)], [joinSysMsg now sid raw]⟩ s.rooms,
                upsert sid ⟨standardize raw, resolveRoom roomId⟩ s.socketToUserMap⟩,
               [Output.socketJoin sid (resolveRoom roomId),
                Output.emitTo sid (OutEvent.chat_history []),
                Output.emitRoom (resolveRoom roomId)
                  (OutEvent.user_list [⟨sid, standardize raw⟩]),
                Output.emitRoom (resolveRoom roomId)
                  (OutEvent.system_message (joinSysMsg now sid raw)),
                Output.emitTo sid OutEvent.join_success])) := by
  refine ⟨fun s h => reachable_roomsLive h, ?_, ?_, ?_, ?_⟩
  · intro now s sid roomId ui rm info hreach h1 h2 h3 hlast hnp
    rw [stepState_some (leave_step_success h1 h2 h3)]
    have hcc : resolveRoom roomId ≠ publicRoom ∧ eraseKey ui.username rm.users = [] :=
      ⟨hnp, hlast⟩
    simp only [removeFromRoom, if_pos hcc]
    exact lookupKey_eraseKey_self (nodup_keys_upsert (reachable_goodState hreach).1)
  · intro now s sid ui rm info hreach h1 h2 h3 hlast hnp
    rw [stepState_some (disconnect_step_success h1 h2 h3)]
    have hcc : ui.room ≠ publicRoom ∧ eraseKey ui.username rm.users = [] :=
      ⟨hnp, hlast⟩
    simp only [removeFromRoom, if_pos hcc]
    exact lookupKey_eraseKey_self (nodup_keys_upsert (reachable_goodState hreach).1)
  · intro now s sid roomId h
    simp [step, checkRoomHandler, h]
  · intro now s sid raw roomId hr hv
    exact join_step_fresh hr hv

def c5state : ServerState :=
  stepState 0 (Event.join_room ("s1") (some ("user12!")) (some ("rooma"))) initState

def c5room : Room :=
  ⟨[("user12!", ⟨"s1", "user12!"⟩)],
   [Message.system ("user12! joined the chat") ("0") ("system-0-s1")]⟩

theorem room_lifecycle_witness :
    RoomsLive initState ∧
    lookupKey (resolveRoom (some ("rooma")))
      (stepState 1 (Event.leave_room ("s1") (some ("rooma"))) c5state).rooms = none ∧
    lookupKey (SessionInfo.room ⟨"user12!", "rooma"⟩)
      (stepState 2 (Event.disconnect ("s1")) c5state).rooms = none ∧
    step 3 (Event.check_room ("s9") (some ("ghost"))) initState =
      some (initState, [Output.reply ("s9") false]) ∧
    (step 4 (Event.join_room ("s2") (some ("newbie99!")) (some ("fresh"))) initState).isSome
      = true := by
  have hreach : Reachable c5state := Reachable.next 0 _ Reachable.init
  refine ⟨room_lifecycle.1 initState Reachable.init,
    room_lifecycle.2.1 1 c5state ("s1") (some ("rooma")) ⟨"user12!", "rooma"⟩ c5room
      ⟨"s1", "user12!"⟩ hreach (by decide) (by decide) (by decide) (by decide) (by decide),
    room_lifecycle.2.2.1 2 c5state ("s1") ⟨"user12!", "rooma"⟩ c5room
      ⟨"s1", "user12!"⟩ hreach (by decide) (by decide) (by decide) (by decide) (by decide),
    room_lifecycle.2.2.2.1 3 initState ("s9") (some ("ghost")) (by decide), ?_⟩
  rw [room_lifecycle.2.2.2.2 4 initState ("s2") ("newbie99!") (some ("fresh"))
    (by decide) (by decide)]
  rfl

/-- Claim C6: username validation checks exactly three conditions in a
fixed order on the standardized form (length at least 5, at least 2
digits, at least 1 special character) and returns the message of the
first failing check; in the join handler this format check runs before,
and independently of, the per-room uniqueness check, so a failing
username is rejected with its format reason in every state, including
states where the name is also already taken. -/
theorem validate_username_order :
    (∀ u : String, u.length < 5 →
       validateUsername u = some ("Username must be at least 5 characters long.")) ∧
    (∀ u : String, ¬ u.length < 5 → countDigits u < 2 →
       validateUsername u = some ("Username must contain at least 2 numbers.")) ∧
    (∀ u : String, ¬ u.length < 5 → ¬ countDigits u < 2 → hasSpecialChar u = false →
       validateUsername u =
         some ("Username must contain at least 1 special character (e.g., !@#$%).")) ∧
    (∀ u : String, ¬ u.length < 5 → ¬ countDigits u < 2 → hasSpecialChar u = true →
       validateUsername u = none) ∧
    (∀ (now : Nat) (s : ServerState) (sid raw : String) (roomId : Option String) (err : String),
       validateUsername (standardize raw) = some err →
       step now (Event.join_room sid (some raw) roomId) s =
         some (s, [Output.emitTo sid (OutEvent.join_error err)])) := by
  refine ⟨?_, ?_, ?_, ?_, ?_⟩
  · intro u h
    simp [validateUsername, h]
  · intro u h1 h2
    simp [validateUsername, h1, h2]
  · intro u h1 h2 h3
    simp [validateUsername, h1, h2, h3]
  · intro u h1 h2 h3
    simp [validateUsername, h1, h2, h3]
  · intro now s sid raw roomId err hv
    exact join_step_invalid hv

def c6taken : ServerState :=
  ⟨[(publicRoom, ⟨[], []⟩), ("x", ⟨[("bo1", ⟨"s1", "bo1"⟩)], []⟩)],
   [("s1", ⟨"bo1", "x"⟩)]⟩

theorem validate_username_order_witness :
    validateUsername ("bo1") = some ("Username must be at least 5 characters long.") ∧
    validateUsername ("alicebob!") = some ("Username must contain at least 2 numbers.") ∧
    validateUsername ("alice123") =
      some ("Username must contain at least 1 special character (e.g., !@#$%).") ∧
    validateUsername ("alice123!") = none ∧
    step 0 (Event.join_room ("s2") (some ("bo1")) (some ("x"))) c6taken =
      some (c6taken,
        [Output.emitTo ("s2")
          (OutEvent.join_error ("Username must be at least 5 characters long."))]) :=
  ⟨validate_username_order.1 _ (by decide),
   validate_username_order.2.1 _ (by decide) (by decide),
   validate_username_order.2.2.1 _ (by decide) (by decide) (by decide),
   validate_username_order.2.2.2.1 _ (by decide) (by decide) (by decide),
   validate_username_order.2.2.2.2 0 c6taken ("s2") ("bo1") (some ("x"))
     ("Username must be at least 5 characters long.") (by decide)⟩

/-- Claim C7: username uniqueness is scoped per room.  A join whose
standardized username is already a member key of the resolved room is
rejected with the taken message, signalled to the requester only, with no
state change; a join into a room whose members do not include the
standardized username succeeds even when the same username holds sessions
in other rooms, adds the member to the target room only, and leaves every
other room entry unchanged. -/
theorem username_uniqueness_per_room :
    (∀ (now : Nat) (s : ServerState) (sid raw : String) (roomId : Option String)
       (rm : Room) (info : UserInfo),
       validateUsername (standardize raw) = none →
       lookupKey (resolveRoom roomId) s.rooms = some rm →
       lookupKey (standardize raw) rm.users = some info →
       step now (Event.join_room sid (some raw) roomId) s =
         some (s, [Output.emitTo sid
           (OutEvent.join_error ("Username already taken in this room."))])) ∧
    (∀ (now : Nat) (s : ServerState) (sid raw : String) (roomId : Option String),
       validateUsername (standardize raw) = none →
       (∀ rm, lookupKey (resolveRoom roomId) s.rooms = some rm →
          lookupKey (standardize raw) rm.users = none) →
       ∃ s' outs, step now (Event.join_room sid (some raw) roomId) s = some (s', outs) ∧
         Output.emitTo sid OutEvent.join_success ∈ outs ∧
         lookupKey (standardize raw) (roomUsers s' (resolveRoom roomId)) =
           some ⟨sid, standardize raw⟩ ∧
         ∀ r, r ≠ resolveRoom roomId → lookupKey r s'.rooms = lookupKey r s.rooms) := by
  constructor
  · intro now s sid raw roomId rm info hv hr hu
    exact join_step_taken hr hv hu
  · intro now s sid raw roomId hv hfree
    rcases hr : lookupKey (resolveRoom roomId) s.rooms with _ | rm
    · refine ⟨_, _, join_step_fresh hr hv, ?_, ?_, ?_⟩
      · simp
      · simp [roomUsers, lookupKey_upsert_self, lookupKey]
      · intro r hrne
        exact lookupKey_upsert_ne _ _ hrne
    · have hu := hfree rm hr
      refine ⟨_, _, join_step_success hr hv hu, ?_, ?_, ?_⟩
      · simp
      · simp [roomUsers, lookupKey_upsert_self]
      · intro r hrne
        exact lookupKey_upsert_ne _ _ hrne

def c7room : Room := ⟨[("user12!", ⟨"s1", "user12!"⟩)], []⟩

def c7state : ServerState :=
  ⟨[(publicRoom, ⟨[], []⟩), ("rooma", c7room)],
   [("s1", ⟨"user12!", "rooma"⟩)]⟩

theorem username_uniqueness_per_room_witness :
    (step 0 (Event.join_room ("s2") (some ("user12!")) (some ("rooma"))) c7state =
      some (c7state, [Output.emitTo ("s2")
        (OutEvent.join_error ("Username already taken in this room."))])) ∧
    ∃ s' outs,
      step 1 (Event.join_room ("s2") (some ("user12!")) (some ("roomb"))) c7state =
        some (s', outs) ∧
      lookupKey (standardize ("user12!")) (roomUsers s' (resolveRoom (some ("roomb")))) =
        some ⟨"s2", standardize ("user12!")⟩ ∧
      lookupKey ("rooma") s'.rooms = lookupKey ("rooma") c7state.rooms := by
  constructor
  · exact username_uniqueness_per_room.1 0 c7state ("s2") ("user12!") (some ("rooma"))
      c7room ⟨"s1", "user12!"⟩ (by decide) (by decide) (by decide)
  · obtain ⟨s', outs, h1, h2, h3, h4⟩ :=
      username_uniqueness_per_room.2 1 c7state ("s2") ("user12!") (some ("roomb"))
        (by decide)
        (fun rm hrm => by
          have h0 : lookupKey (resolveRoom (some ("roomb"))) c7state.rooms = (none : Option Room) := by
            decide
          rw [h0] at hrm
          cases hrm)
    exact ⟨s', outs, h1, h3, h4 _ (by decide)⟩

/-- Claim C8: provided the resolved target room has an entry, a
`send_message` appends the record, with a fresh server-assigned id and
the sender's connection identity attached, to that room's history and
broadcasts it to the whole room exactly when the payload carries a
non-empty sender username, non-empty body and non-empty timestamp — with
no requirement that the sender hold a session anywhere; otherwise the
event is dropped silently with no state change and no output. -/
theorem send_message_behavior (now : Nat) (s : ServerState) (sid : String)
    (md : Option MessageData) (roomId : Option String) (rm : Room)
    (hr : lookupKey (resolveRoom roomId) s.rooms = some rm) :
    (∀ d : MessageData, md = some d → d.username ≠ "" → d.message ≠ "" → d.time ≠ "" →
       step now (Event.send_message sid md roomId) s =
         some (⟨upsert (resolveRoom roomId)
                  ⟨rm.users, rm.messages ++
                    [Message.chat d.username d.message d.time sid (toString now ++ "-" ++ sid)]⟩
                  s.rooms,
                s.socketToUserMap⟩,
               [Output.emitRoom (resolveRoom roomId)
                 (OutEvent.receive_message
                   (Message.chat d.username d.message d.time sid
                     (toString now ++ "-" ++ sid)))])) ∧
    ((∀ d : MessageData, md = some d → ¬(d.username ≠ "" ∧ d.message ≠ "" ∧ d.time ≠ "")) →
       step now (Event.send_message sid md roomId) s = some (s, [])) := by
  constructor
  · intro d hd h1 h2 h3
    subst hd
    exact send_step_valid hr h1 h2 h3
  · intro hinv
    cases md with
    | none => simp [step, sendMessageHandler]
    | some d =>
      have hd := hinv d rfl
      simp [step, sendMessageHandler, hd]

theorem send_message_behavior_witness :
    (step 5 (Event.send_message ("sX") (some ⟨"mallory9?", "hi all", "t9"⟩) (some ("rooma")))
       c7state).isSome = true ∧
    step 5 (Event.send_message ("sX") (some ⟨"", "hi", "t"⟩) (some ("rooma"))) c7state =
      some (c7state, []) := by
  constructor
  · rw [(send_message_behavior 5 c7state ("sX") (some ⟨"mallory9?", "hi all", "t9"⟩)
      (some ("rooma")) c7room (by decide)).1 _ rfl (by decide) (by decide) (by decide)]
    rfl
  · exact (send_message_behavior 5 c7state ("sX") (some ⟨"", "hi", "t"⟩)
      (some ("rooma")) c7room (by decide)).2
      (fun d hd => by
        cases hd
        intro hcc
        exact hcc.1 rfl)

def c9mid : ServerState :=
  stepState 0 (Event.join_room ("s1") (some ("  User12!  ")) none) initState

/-- Claim C9 counterexample: the leave system message does not display the
original non-normalized username.  After a join with raw username
"  User12!  " (standardized to "user12!"), the explicit leave appends and
broadcasts the text "user12! left the chat", built from the standardized
username stored in the session — not "  User12!   left the chat" built
from the raw text, which is displayed in the join message only. -/
theorem leave_message_display_counterexample :
    Reachable c9mid ∧
    step 1 (Event.leave_room ("s1") none) c9mid =
      some (⟨[(publicRoom,
               ⟨[], [Message.system ("  User12!   joined the chat") ("0") ("system-0-s1"),
                     Message.system ("user12! left the chat") ("1") ("system-1-s1")]⟩)], []⟩,
            [Output.emitRoom publicRoom
               (OutEvent.system_message
                 (Message.system ("user12! left the chat") ("1") ("system-1-s1"))),
             Output.socketLeave ("s1") publicRoom,
             Output.emitRoom publicRoom (OutEvent.user_list [])]) ∧
    ("user12! left the chat" : String) ≠ "  User12!   left the chat" :=
  ⟨Reachable.next 0 _ Reachable.init, by decide, by decide⟩

/-- Claim C9 (amended): the join system message displays the raw,
non-normalized username while the session is keyed by the standardized
form; the leave and disconnect system messages display the standardized
username stored in the session, because the raw text is not retained. -/
theorem system_message_display :
    (∀ (now : Nat) (s : ServerState) (sid raw : String) (roomId : Option String),
       validateUsername (standardize raw) = none →
       (∀ rm, lookupKey (resolveRoom roomId) s.rooms = some rm →
          lookupKey (standardize raw) rm.users = none) →
       ∃ s' outs, step now (Event.join_room sid (some raw) roomId) s = some (s', outs) ∧
         Output.emitRoom (resolveRoom roomId)
           (OutEvent.system_message
             (Message.system (raw ++ " joined the chat") (toString now)
               ("system-" ++ toString now ++ "-" ++ sid))) ∈ outs ∧
         lookupKey sid s'.socketToUserMap = some ⟨standardize raw, resolveRoom roomId⟩) ∧
    (∀ (now : Nat) (s : ServerState) (sid : String) (roomId : Option String)
       (ui : SessionInfo) (rm : Room) (info : UserInfo),
       lookupKey sid s.socketToUserMap = some ui →
       lookupKey (resolveRoom roomId) s.rooms = some rm →
       lookupKey ui.username rm.users = some info →
       ∃ s' outs, step now (Event.leave_room sid roomId) s = some (s', outs) ∧
         Output.emitRoom (resolveRoom roomId)
           (OutEvent.system_message
             (Message.system (ui.username ++ " left the chat") (toString now)
               ("system-" ++ toString now ++ "-" ++ sid))) ∈ outs) ∧
    (∀ (now : Nat) (s : ServerState) (sid : String)
       (ui : SessionInfo) (rm : Room) (info : UserInfo),
       lookupKey sid s.socketToUserMap = some ui →
       lookupKey ui.room s.rooms = some rm →
       lookupKey ui.username rm.users = some info →
       ∃ s' outs, step now (Event.disconnect sid) s = some (s', outs) ∧
         Output.emitRoomExcept ui.room sid
           (OutEvent.system_message
             (Message.system (ui.username ++ " left the chat") (toString now)
               ("system-" ++ toString now ++ "-" ++ sid))) ∈ outs) := by
  refine ⟨?_, ?_, ?_⟩
  · intro now s sid raw roomId hv hfree
    rcases hr : lookupKey (resolveRoom roomId) s.rooms with _ | rm
    · refine ⟨_, _, join_step_fresh hr hv, ?_, ?_⟩
      · simp [joinSysMsg]
      · exact lookupKey_upsert_self _ _ _
    · refine ⟨_, _, join_step_success hr hv (hfree rm hr), ?_, ?_⟩
      · simp [joinSysMsg]
      · exact lookupKey_upsert_self _ _ _
  · intro now s sid roomId ui rm info h1 h2 h3
    refine ⟨_, _, leave_step_success h1 h2 h3, ?_⟩
    simp [leaveSysMsg]
  · intro now s sid ui rm info h1 h2 h3
    refine ⟨_, _, disconnect_step_success h1 h2 h3, ?_⟩
    simp [leaveSysMsg]

theorem system_message_display_witness :
    (∃ s' outs,
      step 0 (Event.join_room ("s1") (some ("  User12!  ")) none) initState
        = some (s', outs) ∧
      Output.emitRoom (resolveRoom none)
        (OutEvent.system_message
          (Message.system ("  User12!  " ++ " joined the chat") (toString 0)
            ("system-" ++ toString 0 ++ "-" ++ "s1"))) ∈ outs ∧
      lookupKey ("s1") s'.socketToUserMap =
        some ⟨standardize ("  User12!  "), resolveRoom none⟩) ∧
    (∃ s' outs, step 1 (Event.leave_room ("s1") none) c9mid = some (s', outs) ∧
      Output.emitRoom (resolveRoom none)
        (OutEvent.system_message
          (Message.system ("user12!" ++ " left the chat") (toString 1)
            ("system-" ++ toString 1 ++ "-" ++ "s1"))) ∈ outs) ∧
    (∃ s' outs, step 2 (Event.disconnect ("s1")) c9mid = some (s', outs) ∧
      Output.emitRoomExcept (publicRoom) ("s1")
        (OutEvent.system_message
          (Message.system ("user12!" ++ " left the chat") (toString 2)
            ("system-" ++ toString 2 ++ "-" ++ "s1"))) ∈ outs) := by
  refine ⟨?_, ?_, ?_⟩
  · exact system_message_display.1 0 initState ("s1") ("  User12!  ") none (by decide)
      (fun rm hrm => by
        have h0 : lookupKey (resolveRoom none) initState.rooms
            = some ((⟨[], []⟩ : Room)) := by decide
        rw [h0] at hrm
        cases Option.some.inj hrm
        decide)
  · exact system_message_display.2.1 1 c9mid ("s1") none
      ⟨"user12!", publicRoom⟩ ⟨[("user12!", ⟨"s1", "user12!"⟩)],
        [Message.system ("  User12!   joined the chat") ("0") ("system-0-s1")]⟩
      ⟨"s1", "user12!"⟩ (by decide) (by decide) (by decide)
  · exact system_message_display.2.2 2 c9mid ("s1")
      ⟨"user12!", publicRoom⟩ ⟨[("user12!", ⟨"s1", "user12!"⟩)],
        [Message.system ("  User12!   joined the chat") ("0") ("system-0-s1")]⟩
      ⟨"s1", "user12!"⟩ (by decide) (by decide) (by decide)

/-- Claim C10: `leave_room` resolves the room from the payload, not from
the sender's session.  When connection c holds a session (u, A) and sends
a `leave_room` naming a different room B whose members include the same
standardized username u owned by another connection, the handler removes
the entry for u from room B, appends and broadcasts the "u left the chat"
system record to room B, and deletes the reverse-index entry of c, while
the membership entry of c in room A stays in place. -/
theorem leave_room_cross_room (now : Nat) (s : ServerState) (c : String)
    (roomId : Option String) (ui : SessionInfo) (rmB : Room) (info : UserInfo)
    (hui : lookupKey c s.socketToUserMap = some ui)
    (hne : ui.room ≠ resolveRoom roomId)
    (hB : lookupKey (resolveRoom roomId) s.rooms = some rmB)
    (hmem : lookupKey ui.username rmB.users = some info)
    (_howner : info.socketId ≠ c)
    (hnd : (s.rooms.map Prod.fst).Nodup) :
    step now (Event.leave_room c roomId) s =
      some (removeFromRoom s c (resolveRoom roomId) rmB ui.username
              (leaveSysMsg now c ui.username),
            [Output.emitRoom (resolveRoom roomId)
               (OutEvent.system_message (leaveSysMsg now c ui.username)),
             Output.socketLeave c (resolveRoom roomId),
             Output.emitRoom (resolveRoom roomId)
               (OutEvent.user_list ((eraseKey ui.username rmB.users).map Prod.snd))]) ∧
    (stepState now (Event.leave_room c roomId) s).socketToUserMap =
      eraseKey c s.socketToUserMap ∧
    roomUsers (stepState now (Event.leave_room c roomId) s) (resolveRoom roomId) =
      eraseKey ui.username rmB.users ∧
    lookupKey ui.room (stepState now (Event.leave_room c roomId) s).rooms =
      lookupKey ui.room s.rooms := by
  have h := @leave_step_success now s c roomId ui rmB info hui hB hmem
  refine ⟨h, ?_, ?_, ?_⟩
  · rw [stepState_some h]
    rfl
  · rw [stepState_some h]
    by_cases hcc : resolveRoom roomId ≠ publicRoom ∧ eraseKey ui.username rmB.users = []
    · have hlook : lookupKey (resolveRoom roomId)
          (removeFromRoom s c (resolveRoom roomId) rmB ui.username
            (leaveSysMsg now c ui.username)).rooms = none := by
        simp only [removeFromRoom, if_pos hcc]
        exact lookupKey_eraseKey_self (nodup_keys_upsert hnd)
      simp only [roomUsers, hlook]
      exact hcc.2.symm
    · have hlook : lookupKey (resolveRoom roomId)
          (removeFromRoom s c (resolveRoom roomId) rmB ui.username
            (leaveSysMsg now c ui.username)).rooms =
          some ⟨eraseKey ui.username rmB.users,
                rmB.messages ++ [leaveSysMsg now c ui.username]⟩ := by
        simp only [removeFromRoom, if_neg hcc]
        exact lookupKey_upsert_self _ _ _
      simp only [roomUsers, hlook]
  · rw [stepState_some h]
    simp only [removeFromRoom]
    split
    · rw [lookupKey_eraseKey_ne _ hne, lookupKey_upsert_ne _ _ hne]
    · rw [lookupKey_upsert_ne _ _ hne]

def c10roomb : Room :=
  ⟨[("user12!", ⟨"s2", "user12!"⟩), ("other45!", ⟨"s3", "other45!"⟩)], []⟩

def c10state : ServerState :=
  ⟨[(publicRoom, ⟨[], []⟩),
    ("rooma", ⟨[("user12!", ⟨"s1", "user12!"⟩)], []⟩),
    ("roomb", c10roomb)],
   [("s1", ⟨"user12!", "rooma"⟩), ("s2", ⟨"user12!", "roomb"⟩),
    ("s3", ⟨"other45!", "roomb"⟩)]⟩

theorem leave_room_cross_room_witness :
    (stepState 4 (Event.leave_room ("s1") (some ("roomb"))) c10state).socketToUserMap =
      eraseKey ("s1") c10state.socketToUserMap ∧
    roomUsers (stepState 4 (Event.leave_room ("s1") (some ("roomb"))) c10state)
      (resolveRoom (some ("roomb"))) = eraseKey ("user12!") c10roomb.users ∧
    lookupKey ("rooma")
      (stepState 4 (Event.leave_room ("s1") (some ("roomb"))) c10state).rooms =
      lookupKey ("rooma") c10state.rooms := by
  have h := leave_room_cross_room 4 c10state ("s1") (some ("roomb"))
    ⟨"user12!", "rooma"⟩ c10roomb ⟨"s2", "user12!"⟩
    (by decide) (by decide) (by decide) (by decide) (by decide) (by decide)
  exact ⟨h.2.1, h.2.2.1, h.2.2.2⟩

example : validateUsername (standardize ("alice123!")) = none := by decide

example : validateUsername ("bo1") = some ("Username must be at least 5 characters long.") := by
  decide

example : validateUsername ("alice12") =
    some ("Username must contain at least 1 special character (e.g., !@#$%).") := by decide

example : validateUsername ("alicebob!") =
    some ("Username must contain at least 2 numbers.") := by decide

example : standardize ("  User12!  ") = "user12!" := by decide

example :
    step 0 (Event.send_message ("s1") (some ⟨"alice12!", "hi", "t1"⟩) (some ("nowhere"))) initState
      = none := by decide
